import Mathlib

/-!
Verification development for `monitor.py` (nodes-monitor).

The Python source is shallowly embedded: classes become structures, methods
become pure functions (mutation is explicit state passing), Python `None`
becomes `Option`, Python integers become `Nat` (the counters are only ever
incremented from 0), and Python real arithmetic (`/`, `round(x, 1)`) is
modelled exactly over `ℚ`, with `round` as round-half-to-even, which is the
documented behaviour of Python's `round` on exact values.  External effects
(the SSH session output, the result of the `ping` shell command, the contents
of `output.txt` / `output_table.txt`) are passed in as explicit arguments.
The two regular expressions of the source are compiled by hand into
deterministic character-list parsers; determinism is justified in the doc
comment of each parser.
-/

/-- Python `\s` (ASCII range): space, tab, newline, carriage return,
vertical tab, form feed. -/
def pyWs (c : Char) : Bool :=
  c == ' ' || c == '\t' || c == '\n' || c == '\r' || c == '\x0b' || c == '\x0c'

/-- Character class `[0-9a-f\.]` of the MAC-address capture group in
`get_vlan_and_mac_addresses`: a decimal digit, a lowercase hex letter, or a
dot.  Note the class has no colon. -/
def isMacChar (c : Char) : Bool :=
  c.isDigit || ('a' ≤ c && c ≤ 'f') || c == '.'

/-- Python `output.split("\n")` on the character list of the output: split on
every newline, keeping empty pieces (`split` of `""` is `[""]`). -/
def splitLines : List Char → List (List Char)
  | [] => [[]]
  | c :: rest =>
    match splitLines rest with
    | [] => if c = '\n' then [[], []] else [[c]]
    | piece :: pieces =>
      if c = '\n' then [] :: piece :: pieces else (c :: piece) :: pieces

/-- Hand compilation of the regex
`^\*\s(?P<vlan>\d+)\s+(?P<mac_address>[0-9a-f\.]{14})` applied with
`re.match` to one line (from `get_vlan_and_mac_addresses`).  The compilation
is deterministic: `\d+` must take the whole leading digit run (giving a digit
back would make the following `\s+` start at a digit and fail), `\s+` must
take the whole whitespace run (giving a whitespace back would make the
following class character a whitespace, which `[0-9a-f\.]` rejects), and
nothing after `{14}` is constrained. -/
def matchMacLine (line : List Char) : Option (String × String) :=
  match line with
  | a :: c :: rest =>
    if a = '*' ∧ pyWs c then
      let vlan := rest.takeWhile (fun ch => ch.isDigit)
      let rest1 := rest.dropWhile (fun ch => ch.isDigit)
      if vlan.isEmpty then none
      else
        let ws := rest1.takeWhile pyWs
        let rest2 := rest1.dropWhile pyWs
        if ws.isEmpty then none
        else
          let mac := rest2.take 14
          if mac.length == 14 && mac.all isMacChar then
            some (String.mk vlan, String.mk mac)
          else none
    else none
  | _ => none

/-- Embedding of `get_vlan_and_mac_addresses`, taking the raw text returned
by `show mac address-table interface ...` as an argument: split the output on
newlines and collect the (vlan, mac_address) capture of every matching
line. -/
def get_vlan_and_mac_addresses (output : String) : List (String × String) :=
  (splitLines output.data).filterMap matchMacLine

/-- One octet `\d{1,3}` followed by a non-digit: deterministically, the whole
leading digit run, which must have length 1 to 3 (backtracking inside the run
would leave a digit as the next character, and every context of `\d{1,3}` in
the source regex demands a non-digit right after). -/
def takeOctet (cs : List Char) : Option (List Char × List Char) :=
  let ds := cs.takeWhile (fun c => c.isDigit)
  if 1 ≤ ds.length ∧ ds.length ≤ 3 then some (ds, cs.dropWhile (fun c => c.isDigit))
  else none

/-- Consume one expected literal character. -/
def expectChar (c : Char) : List Char → Option (List Char)
  | x :: xs => if x = c then some xs else none
  | [] => none

/-- Consume `\d{2}`: exactly two digits. -/
def twoDigits : List Char → Option (List Char)
  | a :: b :: rest => if a.isDigit && b.isDigit then some rest else none
  | _ => none

/-- Consume `\s+`: deterministically the whole leading whitespace run, which
must be nonempty (giving a whitespace back would hand it to a pattern that
rejects whitespace in both uses in the source regex). -/
def wsPlus (cs : List Char) : Option (List Char) :=
  if (cs.takeWhile pyWs).isEmpty then none else some (cs.dropWhile pyWs)

/-- Embedding of `get_ip_address`, taking the raw text returned by
`show ip arp | include ...` as an argument.  The source applies `re.match`
with pattern
`^(?P<ip_address>\d{1,3}\.\d{1,3}\.\d{1,3}\.\d{1,3})\s+(?P<age>\d{2}:\d{2}:\d{2})\s+`
to the whole output string (it does not split the output into lines), so a
match can only start at the very first character of the output; on success
the `ip_address` capture is returned, otherwise the Python function falls off
the end and returns `None`. -/
def get_ip_address (output : String) : Option String := do
  let cs := output.data
  let (o1, cs) ← takeOctet cs
  let cs ← expectChar '.' cs
  let (o2, cs) ← takeOctet cs
  let cs ← expectChar '.' cs
  let (o3, cs) ← takeOctet cs
  let cs ← expectChar '.' cs
  let (o4, cs) ← takeOctet cs
  let cs ← wsPlus cs
  let cs ← twoDigits cs
  let cs ← expectChar ':' cs
  let cs ← twoDigits cs
  let cs ← expectChar ':' cs
  let cs ← twoDigits cs
  let _ ← wsPlus cs
  pure (String.mk (o1 ++ '.' :: (o2 ++ '.' :: (o3 ++ '.' :: o4))))

/-- Embedding of class `Node`.  Field order and defaults follow `__init__`:
`name` starts as `None`, `last_ping_successful` as `False`, both counters as
`0`.  `ip_address` is `Option` because `get_ip_address` may return `None`. -/
structure Node where
  mac_address : String
  ip_address : Option String
  interface : String
  vlan : String
  name : Option String := none
  last_ping_successful : Bool := false
  successful_pings : Nat := 0
  failed_pings : Nat := 0
deriving Repr, DecidableEq

/-- Round-half-to-even of a rational to an integer: the behaviour of Python's
`round` on the exact value of its argument. -/
def rheZ (x : ℚ) : ℤ :=
  if x - ⌊x⌋ < 1/2 then ⌊x⌋
  else if 1/2 < x - ⌊x⌋ then ⌊x⌋ + 1
  else if ⌊x⌋ % 2 = 0 then ⌊x⌋ else ⌊x⌋ + 1

/-- Python `round(x, 1)` returned as an integer number of tenths:
round-half-to-even of `10 * x`. -/
def pyRound1Tenths (x : ℚ) : ℤ := rheZ (10 * x)

/-- Rendering of the f-string `f"{round(..., 1)}%"`: Python's `str` of a
float that is a whole number of tenths in `[0, 1000]` prints exactly one
decimal digit (`100.0`, `66.7`, `50.0`, ...). -/
def fmtPercent (t : ℤ) : String :=
  toString (t.toNat / 10) ++ "." ++ toString (t.toNat % 10) ++ "%"

/-- Embedding of the property `Node.response_rate`.  Python's float division
and `round(x, 1)` are modelled as exact rational arithmetic with
round-half-to-even. -/
def Node.response_rate (n : Node) : String :=
  if n.successful_pings = 0 then "0%"
  else
    fmtPercent (pyRound1Tenths
      ((n.successful_pings : ℚ) / ((n.successful_pings : ℚ) + (n.failed_pings : ℚ)) * 100))

/-- Round-half-to-even of `num / den` over the natural numbers (`den > 0`),
written with integer division and remainder. -/
def rhe (num den : Nat) : Nat :=
  let q := num / den
  let r := num % den
  if 2 * r < den then q
  else if den < 2 * r then q + 1
  else if q % 2 = 0 then q else q + 1

/-- Spec-side rendering of the response rate, following the spec's words:
"rate = round(successes / (successes+failures) × 100, 1 decimal place),
rendered with a trailing `%`", formatted with one decimal digit; the rounding
to one decimal is computed here directly in tenths over the naturals. -/
def spec_response_rate (s f : Nat) : String :=
  if s = 0 then "0%"
  else toString (rhe (1000 * s) (s + f) / 10) ++ "." ++
       toString (rhe (1000 * s) (s + f) % 10) ++ "%"

/-- `Node.response_rate` with the division guarded: the division branch
returns `none` when its divisor `successful_pings + failed_pings` is zero,
instead of dividing. -/
def Node.response_rate_checked (n : Node) : Option String :=
  if n.successful_pings = 0 then some "0%"
  else if n.successful_pings + n.failed_pings = 0 then none
  else
    some (fmtPercent (pyRound1Tenths
      ((n.successful_pings : ℚ) / ((n.successful_pings : ℚ) + (n.failed_pings : ℚ)) * 100)))

/-- Embedding of `Node.ping`.  The outcome of the shell command
`ping -n 1 -w 2 <ip>` (exit status zero or not) is an external effect, passed
in as `ok`; the method then performs exactly one of the two counter
updates. -/
def Node.ping (n : Node) (ok : Bool) : Node :=
  if ok then
    { n with last_ping_successful := true, successful_pings := n.successful_pings + 1 }
  else
    { n with last_ping_successful := false, failed_pings := n.failed_pings + 1 }

/-- Embedding of `Node.__str__`: the display name when present, otherwise the
network address.  The result is `Option String` because Python's
`return self.ip_address` returns `None` when both are absent. -/
def Node.str (n : Node) : Option String :=
  if n.name ≠ none then n.name else n.ip_address

/-- One table row as built by `pre_populate_table` and `update_row`: the
cells are `node.interface, node.vlan, node.mac_address, node.ip_address,
node.name, node.response_rate`; the fourth and fifth may be Python `None`. -/
def Node.toRow (n : Node) : List (Option String) :=
  [some n.interface, some n.vlan, some n.mac_address, n.ip_address, n.name,
   some n.response_rate]

/-- Embedding of class `Table`: the header list and the mutable row list. -/
structure Table where
  headers : List String
  rows : List (List (Option String))
deriving Repr, DecidableEq

/-- `Table.__init__`: the six fixed headers and an empty row list. -/
def Table.init : Table :=
  { headers := ["Interface", "VLAN", "MAC Address", "IP Address", "Name", "Response Rate"],
    rows := [] }

/-- Embedding of `Table.pre_populate_table`: append one row per node, in node
order, to the existing rows. -/
def Table.pre_populate_table (t : Table) (nodes : List Node) : Table :=
  { t with rows := t.rows ++ nodes.map Node.toRow }

/-- Embedding of `Table.update_row`: overwrite the row at `index` with the
node's current projection (`self.rows[index] = [...]`). -/
def Table.update_row (t : Table) (node : Node) (index : Nat) : Table :=
  { t with rows := t.rows.set index node.toRow }

/-- Rendering of a cell by the tabulate library: Python `None` is rendered as
the default missing value, the empty string. -/
def renderCell : Option String → String
  | some s => s
  | none => ""

/-- Fold one rendered row into the running column widths. -/
def updateWidths : List Nat → List String → List Nat
  | ws, [] => ws
  | [], cells => cells.map String.length
  | w :: ws, c :: cells => max w c.length :: updateWidths ws cells

/-- Pad a cell on the right to the column width. -/
def padRight (s : String) (w : Nat) : String :=
  s ++ String.mk (List.replicate (w - s.length) ' ')

/-- Deterministic pure model of the external `tabulate(rows, headers)` call
(default format): every column as wide as its widest rendered cell or header,
a header line, a dashed separator line, then one line per row, cells joined
by two spaces.  Only determinism in `(rows, headers)` matters below. -/
def tabulate (rows : List (List (Option String))) (headers : List String) : String :=
  let rendered := rows.map (fun r => r.map renderCell)
  let ws := rendered.foldl updateWidths (headers.map String.length)
  let line := fun (cells : List String) =>
    String.intercalate "  " ((cells.zip ws).map (fun p => padRight p.1 p.2))
  let sep := String.intercalate "  " (ws.map (fun w => String.mk (List.replicate w '-')))
  String.intercalate "\n" (line headers :: sep :: rendered.map line)

/-- Embedding of `Table.save`.  Opening `output_table.txt` with mode `"w"`
discards the previous contents `prev`; the new contents are the
`"{start} - {end}"` header line, a blank line, and the tabulate rendering of
rows and headers.  The two datetime arguments are modelled as their rendered
strings. -/
def Table.save (t : Table) (start finish : String) (prev : String) : String :=
  let _ := prev
  start ++ " - " ++ finish ++ "\n\n" ++ tabulate t.rows t.headers

/-- One pass of the `while True:` monitoring loop body over the remaining
node list, carrying the running row index (`index` in the source) and the
table.  A node whose `ip_address` is `None` is skipped (`continue`) after
`index += 1`; otherwise the node is pinged (its probe outcome supplied by
`outcomes` at its index), its row is updated, and the table is saved (an
external write, which does not change the loop state).  Returns the updated
node list and table. -/
def monitorCycleAux (outcomes : Nat → Bool) :
    List Node → Nat → Table → List Node × Table
  | [], _, t => ([], t)
  | node :: rest, index, t =>
    if node.ip_address = none then
      let p := monitorCycleAux outcomes rest (index + 1) t
      (node :: p.1, p.2)
    else
      let node' := node.ping (outcomes index)
      let t' := t.update_row node' index
      let p := monitorCycleAux outcomes rest (index + 1) t'
      (node' :: p.1, p.2)

/-- One full cycle of the monitor loop, starting at index 0. -/
def monitorCycle (outcomes : Nat → Bool) (nodes : List Node) (t : Table) :
    List Node × Table :=
  monitorCycleAux outcomes nodes 0 t

/-- Spec-side comparison definition for the address-resolution claim,
following the spec's words: "parse the first line whose shape is
network-address, age, ... — if no line matches, the node's network address is
left absent": scan the output line by line and return the capture of the
first line that matches the shape. -/
def spec_first_matching_line (output : String) : Option String :=
  (splitLines output.data).findSome? (fun l => get_ip_address (String.mk l))

/-- Sample node with zero successful probes and three failed probes. -/
def nodeZeroSucc : Node :=
  { mac_address := "0050.569f.0c60", ip_address := some "10.25.5.37",
    interface := "Po6", vlan := "4", name := none,
    last_ping_successful := false, successful_pings := 0, failed_pings := 3 }

/-- Sample node with two successful and one failed probe. -/
def nodeSucc : Node :=
  { mac_address := "0050.569f.0c61", ip_address := some "10.25.5.38",
    interface := "Po6", vlan := "4", name := some "host1",
    last_ping_successful := true, successful_pings := 2, failed_pings := 1 }

/-- Sample node whose address resolution failed. -/
def nodeNoIp : Node :=
  { mac_address := "0050.569f.0c62", ip_address := none,
    interface := "Po7", vlan := "5", name := none,
    last_ping_successful := false, successful_pings := 0, failed_pings := 0 }

/-- Sample node whose reverse-name resolution failed but whose address
resolution succeeded. -/
def nodeNoName : Node :=
  { mac_address := "0050.569f.0c60", ip_address := some "10.25.5.37",
    interface := "Po6", vlan := "4", name := none,
    last_ping_successful := false, successful_pings := 0, failed_pings := 0 }

/-- C1: for every Node whose successful-probe count is zero, `response_rate`
is exactly the string "0%", whatever the failed-probe count is. -/
theorem c1_rate_zero_success (n : Node) (h : n.successful_pings = 0) :
    n.response_rate = "0%" := by
  simp [Node.response_rate, h]

/-- Witness for C1 at a node with 0 successes and 3 failures. -/
theorem c1_rate_zero_success_witness :
    nodeZeroSucc.successful_pings = 0 ∧ 0 < nodeZeroSucc.failed_pings ∧
    nodeZeroSucc.response_rate = "0%" :=
  ⟨rfl, by decide, c1_rate_zero_success nodeZeroSucc rfl⟩

/-- C6: saving the table twice with the same rows, headers and timestamps
produces byte-identical artifacts; the second write fully overwrites and
reproduces the first. -/
theorem c6_save_idempotent (t : Table) (start finish prev : String) :
    t.save start finish (t.save start finish prev) = t.save start finish prev :=
  rfl

/-- C8: one probe performs exactly one of the two transitions: on success the
success counter increments by one and the last-outcome flag becomes true; on
failure the failure counter increments by one and the flag becomes false;
in both cases the counters are non-decreasing and their sum grows by one. -/
theorem c8_ping_transitions (n : Node) (ok : Bool) :
    (n.ping true).successful_pings = n.successful_pings + 1 ∧
    (n.ping true).failed_pings = n.failed_pings ∧
    (n.ping true).last_ping_successful = true ∧
    (n.ping false).failed_pings = n.failed_pings + 1 ∧
    (n.ping false).successful_pings = n.successful_pings ∧
    (n.ping false).last_ping_successful = false ∧
    (n.ping ok).successful_pings + (n.ping ok).failed_pings
      = n.successful_pings + n.failed_pings + 1 ∧
    n.successful_pings ≤ (n.ping ok).successful_pings ∧
    n.failed_pings ≤ (n.ping ok).failed_pings := by
  cases ok <;> simp [Node.ping] <;> omega

/-- C10: evaluating the response rate never divides by zero: the division
branch is only reached when the success count is nonzero, which makes the
divisor `successful_pings + failed_pings` positive, so the guarded variant
agrees with `response_rate` on every node. -/
theorem c10_no_division_by_zero (n : Node) :
    n.response_rate_checked = some n.response_rate := by
  unfold Node.response_rate_checked Node.response_rate
  by_cases h : n.successful_pings = 0
  · simp [h]
  · have h2 : ¬ n.successful_pings + n.failed_pings = 0 := by omega
    simp [h, h2]

/-- C9 (amended): for a Node with an absent display name, the string
conversion `__str__` falls back to the network address; the Name column of
its Table row, however, holds the absent name value itself (Python `None`),
not the network address. -/
theorem c9_name_fallback (n : Node) (h : n.name = none) :
    n.str = n.ip_address ∧ n.toRow[4]? = some none := by
  simp [Node.str, Node.toRow, h]

/-- Witness for C9 at a node with failed name resolution. -/
theorem c9_name_fallback_witness :
    nodeNoName.name = none ∧
    (nodeNoName.str = nodeNoName.ip_address ∧ nodeNoName.toRow[4]? = some none) :=
  ⟨rfl, c9_name_fallback nodeNoName rfl⟩

/-- Counterexample for C9 as stated: for a node with absent display name and
network address 10.25.5.37, the Name cell of its Table row is the absent
value (rendered as the empty string by tabulate), not the network address. -/
theorem c9_counterexample :
    nodeNoName.ip_address = some "10.25.5.37" ∧
    nodeNoName.toRow[4]? = some none ∧
    nodeNoName.toRow[4]? ≠ some (some "10.25.5.37") ∧
    (nodeNoName.toRow.map renderCell)[4]? = some "" := by
  refine ⟨rfl, ?_, ?_, ?_⟩ <;> simp [Node.toRow, nodeNoName, renderCell]

/-- C5: seeding the table from a node list produces exactly one row per node
(nodes with absent network address included), and `update_row node i` at a
valid index overwrites exactly row `i` with the node's projection, preserving
the row count and every other row, so the row-to-node index alignment is
preserved. -/
theorem c5_table_alignment (nodes : List Node) :
    (Table.init.pre_populate_table nodes).rows.length = nodes.length ∧
    ∀ (t : Table) (node : Node) (i : Nat), i < t.rows.length →
      (t.update_row node i).rows.length = t.rows.length ∧
      (t.update_row node i).rows[i]? = some node.toRow ∧
      ∀ j, j ≠ i → (t.update_row node i).rows[j]? = t.rows[j]? := by
  constructor
  · simp [Table.pre_populate_table, Table.init]
  · intro t node i hi
    refine ⟨by simp [Table.update_row], ?_, ?_⟩
    · simp [Table.update_row, List.getElem?_set_eq_of_lt _ hi]
    · intro j hj
      simp [Table.update_row, List.getElem?_set_ne (by omega : i ≠ j)]

/-- Witness for C5: a two-node table, updating row 0 keeps the length, sets
row 0 to the node's projection, and leaves row 1 unchanged. -/
theorem c5_table_alignment_witness :
    (Table.init.pre_populate_table [nodeNoIp, nodeSucc]).rows.length = 2 ∧
    (((Table.init.pre_populate_table [nodeNoIp, nodeSucc]).update_row nodeSucc 0).rows.length
       = (Table.init.pre_populate_table [nodeNoIp, nodeSucc]).rows.length ∧
     ((Table.init.pre_populate_table [nodeNoIp, nodeSucc]).update_row nodeSucc 0).rows[0]?
       = some nodeSucc.toRow ∧
     ((Table.init.pre_populate_table [nodeNoIp, nodeSucc]).update_row nodeSucc 0).rows[1]?
       = (Table.init.pre_populate_table [nodeNoIp, nodeSucc]).rows[1]?) := by
  have h := c5_table_alignment [nodeNoIp, nodeSucc]
  have h2 := h.2 (Table.init.pre_populate_table [nodeNoIp, nodeSucc]) nodeSucc 0
    (by simp [Table.pre_populate_table, Table.init])
  exact ⟨h.1, h2.1, h2.2.1, h2.2.2 1 (by omega)⟩

/-- C3 (amended): with a single whitespace between the active-entry marker
and the VLAN (the regex `^\*\s...` demands exactly one), Discovery extracts
the pair ("4", "0050.569f.0c60") from the example line; a line yields a pair
only when it begins with the marker followed by a whitespace, a VLAN number
and 14 characters of dot-separated hex; and a line without the leading marker
yields no pair. -/
theorem c3_mac_table_parsing :
    get_vlan_and_mac_addresses
        "* 4        0050.569f.0c60    dynamic     ~~~      F    F  Po6"
      = [("4", "0050.569f.0c60")] ∧
    (∀ (line : List Char) (v m : String), matchMacLine line = some (v, m) →
      ∃ c rest, line = '*' :: c :: rest ∧ pyWs c = true ∧
        v.data ≠ [] ∧ v.data.all Char.isDigit = true ∧
        m.data.length = 14 ∧ m.data.all isMacChar = true) ∧
    (∀ line : List Char, line.head? ≠ some '*' → matchMacLine line = none) := by
  refine ⟨by decide, ?_, ?_⟩
  · intro line v m h
    match line with
    | [] => simp [matchMacLine] at h
    | [a] => simp [matchMacLine] at h
    | a :: c :: rest =>
      simp only [matchMacLine] at h
      split_ifs at h with hmark hv hw hmac
      obtain ⟨ha, hc⟩ := hmark
      subst ha
      rw [Option.some_inj, Prod.mk.injEq] at h
      obtain ⟨hv2, hm2⟩ := h
      subst hv2; subst hm2
      refine ⟨c, rest, rfl, hc, ?_, ?_, ?_, ?_⟩
      · simpa [String.mk] using (by simpa using hv : ¬ rest.takeWhile (fun ch => ch.isDigit) = [])
      · exact List.all_eq_true.mpr (fun x hx => List.mem_takeWhile_imp hx)
      · simpa using ((Bool.and_eq_true _ _).mp hmac).1
      · exact ((Bool.and_eq_true _ _).mp hmac).2
  · intro line h
    match line with
    | [] => rfl
    | [a] => rfl
    | a :: c :: rest =>
      have ha : ¬ a = '*' := by simpa using h
      simp [matchMacLine, ha]

/-- Witness for C3: the general parts applied at concrete lines — the
single-space example line satisfies the extracted shape, and a header line
without the marker yields no pair. -/
theorem c3_mac_table_parsing_witness :
    (∃ c rest,
      ("* 4        0050.569f.0c60    dynamic     ~~~      F    F  Po6".data)
        = '*' :: c :: rest ∧ pyWs c = true ∧
      ("4" : String).data ≠ [] ∧ ("4" : String).data.all Char.isDigit = true ∧
      ("0050.569f.0c60" : String).data.length = 14 ∧
      ("0050.569f.0c60" : String).data.all isMacChar = true) ∧
    matchMacLine ("   10    0050.569f.0c60    static".data) = none :=
  ⟨c3_mac_table_parsing.2.1 _ "4" "0050.569f.0c60" (by decide),
   c3_mac_table_parsing.2.2 _ (by decide)⟩

/-- Counterexample for C3 as stated: on the spec's example line, which has
two spaces between the marker and the VLAN, Discovery extracts nothing,
because `\s` in `^\*\s(?P<vlan>\d+)` matches exactly one whitespace character
and `\d+` then fails on the second space. -/
theorem c3_counterexample :
    get_vlan_and_mac_addresses
        "*  4        0050.569f.0c60    dynamic     ~~~      F    F  Po6" = [] ∧
    get_vlan_and_mac_addresses
        "*  4        0050.569f.0c60    dynamic     ~~~      F    F  Po6"
      ≠ [("4", "0050.569f.0c60")] := by
  have h0 : get_vlan_and_mac_addresses
      "*  4        0050.569f.0c60    dynamic     ~~~      F    F  Po6" = [] := by
    decide
  refine ⟨h0, ?_⟩
  rw [h0]
  decide

/-- C4 (amended): the address-resolution parser examines only the beginning
of the whole command output (`re.match` anchors at position 0 and the output
is not split into lines): when the output starts with
"10.25.5.37      00:08:31  " the resolved address is "10.25.5.37", and when
the first character of the output is not a digit the resolved address is
absent, regardless of any later line. -/
theorem c4_arp_parsing :
    get_ip_address "10.25.5.37      00:08:31  0050.569f.0c60  Vlan4"
      = some "10.25.5.37" ∧
    ∀ output : String,
      Option.all (fun c => ! c.isDigit) output.data.head? = true →
      get_ip_address output = none := by
  refine ⟨by decide, ?_⟩
  intro output h
  cases hd : output.data with
  | nil => simp [get_ip_address, hd, takeOctet]
  | cons c tail =>
    rw [hd] at h
    have hc : c.isDigit = false := by simpa using h
    simp [get_ip_address, hd, takeOctet, List.takeWhile_cons, hc]

/-- Witness for C4: the negative part applied at an output whose first line
is a header; the whole output resolves to no address even though its second
line has the matching shape. -/
theorem c4_arp_parsing_witness :
    get_ip_address
        "Protocol  Address\n10.25.5.37      00:08:31  0050.569f.0c60  Vlan4"
      = none :=
  c4_arp_parsing.2 _ (by decide)

/-- Counterexample for C4 as stated: an output whose second line has the
required shape.  Taking "the first line of the output whose shape matches"
(the spec-side scan) yields 10.25.5.37, but the code, which only matches at
the very start of the output, yields no address. -/
theorem c4_counterexample :
    spec_first_matching_line
        "Protocol  Address\n10.25.5.37      00:08:31  0050.569f.0c60  Vlan4"
      = some "10.25.5.37" ∧
    get_ip_address
        "Protocol  Address\n10.25.5.37      00:08:31  0050.569f.0c60  Vlan4"
      = none := by
  constructor <;> decide

/-- Rows at indices strictly below the running index are never written by the
remainder of a cycle: every `update_row` of the remainder targets the running
index or a later one. -/
theorem monitorCycleAux_frame (outcomes : Nat → Bool) (nodes : List Node)
    (k : Nat) (t : Table) (j : Nat) (h : j < k) :
    (monitorCycleAux outcomes nodes k t).2.rows[j]? = t.rows[j]? := by
  induction nodes generalizing k t with
  | nil => rfl
  | cons node rest ih =>
    by_cases hip : node.ip_address = none
    · simp only [monitorCycleAux, hip, if_pos]
      exact ih (k + 1) t (by omega)
    · simp only [monitorCycleAux, hip, if_neg, ite_false]
      rw [ih (k + 1) _ (by omega)]
      simp [Table.update_row, List.getElem?_set_ne (by omega : k ≠ j)]

/-- A node with absent network address at position `i` of the remaining node
list is returned unchanged by the rest of the cycle, and the table row at its
overall index `k + i` is untouched. -/
theorem monitorCycleAux_skip (outcomes : Nat → Bool) (nodes : List Node)
    (k : Nat) (t : Table) (i : Nat) (n : Node)
    (h : nodes[i]? = some n) (hip : n.ip_address = none) :
    (monitorCycleAux outcomes nodes k t).1[i]? = some n ∧
    (monitorCycleAux outcomes nodes k t).2.rows[k + i]? = t.rows[k + i]? := by
  induction nodes generalizing k t i with
  | nil => simp at h
  | cons node rest ih =>
    cases i with
    | zero =>
      have hn : node = n := by simpa using h
      subst hn
      simp only [monitorCycleAux, hip, if_pos]
      exact ⟨by simp, monitorCycleAux_frame outcomes rest (k + 1) t (k + 0) (by omega)⟩
    | succ i' =>
      have h' : rest[i']? = some n := by simpa using h
      have hk : k + (i' + 1) = (k + 1) + i' := by omega
      by_cases hip2 : node.ip_address = none
      · simp only [monitorCycleAux, hip2, if_pos]
        refine ⟨by simpa using (ih (k + 1) t i' h').1, ?_⟩
        rw [hk]
        exact (ih (k + 1) t i' h').2
      · simp only [monitorCycleAux, hip2, if_neg, ite_false]
        refine ⟨by simpa using (ih (k + 1) _ i' h').1, ?_⟩
        rw [hk, (ih (k + 1) _ i' h').2]
        simp [Table.update_row, List.getElem?_set_ne (by omega : k ≠ k + 1 + i')]

/-- C7: in one cycle of the monitor loop, a node with absent network address
is skipped entirely: the node at its index is returned unchanged (so its
counters and last-outcome flag are unchanged and it is never probed), and its
table row keeps whatever value it had before the cycle (`update_row` is never
applied at its index). -/
theorem c7_absent_ip_skipped (outcomes : Nat → Bool) (nodes : List Node)
    (t : Table) (i : Nat) (n : Node)
    (h : nodes[i]? = some n) (hip : n.ip_address = none) :
    (monitorCycle outcomes nodes t).1[i]? = some n ∧
    (monitorCycle outcomes nodes t).2.rows[i]? = t.rows[i]? := by
  have h0 := monitorCycleAux_skip outcomes nodes 0 t i n h hip
  simpa [monitorCycle] using h0

/-- Witness for C7: a two-node cycle where every probe succeeds; the node
without an address keeps its state and its seeded row, while the other node's
row may change. -/
theorem c7_absent_ip_skipped_witness :
    (monitorCycle (fun _ => true) [nodeNoIp, nodeSucc]
        (Table.init.pre_populate_table [nodeNoIp, nodeSucc])).1[0]? = some nodeNoIp ∧
    (monitorCycle (fun _ => true) [nodeNoIp, nodeSucc]
        (Table.init.pre_populate_table [nodeNoIp, nodeSucc])).2.rows[0]?
      = (Table.init.pre_populate_table [nodeNoIp, nodeSucc]).rows[0]? :=
  c7_absent_ip_skipped (fun _ => true) [nodeNoIp, nodeSucc]
    (Table.init.pre_populate_table [nodeNoIp, nodeSucc]) 0 nodeNoIp rfl rfl

/-- Bridge: round-half-to-even of the rational `num / den` computed through
`Int.floor` coincides with the natural-number computation by quotient and
remainder. -/
theorem rheZ_nat_div (num den : ℕ) (h : 0 < den) :
    rheZ ((num : ℚ) / (den : ℚ)) = (rhe num den : ℤ) := by
  have hden : (0 : ℚ) < (den : ℚ) := by exact_mod_cast h
  have hnat : ((num / den) * den + num % den : ℕ) = num := by
    rw [mul_comm]; exact Nat.div_add_mod num den
  have hfloor : ⌊(num : ℚ) / (den : ℚ)⌋ = ((num / den : ℕ) : ℤ) := by
    rw [Rat.floor_natCast_div_natCast]
    exact (Int.ofNat_tdiv num den).symm
  have hval : (num : ℚ) / (den : ℚ)
      = ((num / den : ℕ) : ℚ) + ((num % den : ℕ) : ℚ) / (den : ℚ) := by
    conv_lhs => rw [← hnat]
    push_cast
    rw [add_div, mul_div_cancel_right₀ _ (ne_of_gt hden)]
  have hfr : (num : ℚ) / (den : ℚ) - (⌊(num : ℚ) / (den : ℚ)⌋ : ℚ)
      = ((num % den : ℕ) : ℚ) / (den : ℚ) := by
    rw [hfloor, hval, Int.cast_natCast]
    ring
  have hlt : (((num % den : ℕ) : ℚ) / (den : ℚ) < 1 / 2) ↔ 2 * (num % den) < den := by
    rw [div_lt_div_iff₀ hden (by norm_num : (0 : ℚ) < 2), one_mul]
    norm_cast
    omega
  have hgt : (1 / 2 < ((num % den : ℕ) : ℚ) / (den : ℚ)) ↔ den < 2 * (num % den) := by
    rw [div_lt_div_iff₀ (by norm_num : (0 : ℚ) < 2) hden, one_mul]
    norm_cast
    omega
  have hpar : (((num / den : ℕ) : ℤ) % 2 = 0) ↔ (num / den) % 2 = 0 := by omega
  simp only [rheZ, rhe]
  rw [hfr, hfloor]
  by_cases h1 : 2 * (num % den) < den
  · rw [if_pos (hlt.mpr h1), if_pos h1]
  · rw [if_neg (fun hc => h1 (hlt.mp hc)), if_neg h1]
    by_cases h2 : den < 2 * (num % den)
    · rw [if_pos (hgt.mpr h2), if_pos h2]
      push_cast
      ring
    · rw [if_neg (fun hc => h2 (hgt.mp hc)), if_neg h2]
      by_cases h3 : (num / den) % 2 = 0
      · rw [if_pos (hpar.mpr h3), if_pos h3]
      · rw [if_neg (fun hc => h3 (hpar.mp hc)), if_neg h3]
        push_cast
        ring

/-- C2: for every node with nonzero successful-probe count, `response_rate`
is `round(successes / (successes + failures) * 100, 1)` formatted with one
decimal digit and a trailing `%` — stated via the spec-side rendering, which
computes the rounded tenths over the naturals. -/
theorem c2_rate_nonzero_success (n : Node) (h : n.successful_pings ≠ 0) :
    n.response_rate = spec_response_rate n.successful_pings n.failed_pings := by
  have hden : 0 < n.successful_pings + n.failed_pings := by omega
  have hQ : (n.successful_pings : ℚ) + (n.failed_pings : ℚ) ≠ 0 := by
    have h0 : (0 : ℚ) < (n.successful_pings : ℚ) + (n.failed_pings : ℚ) := by
      exact_mod_cast hden
    exact ne_of_gt h0
  have h10 : 10 * ((n.successful_pings : ℚ)
        / ((n.successful_pings : ℚ) + (n.failed_pings : ℚ)) * 100)
      = ((1000 * n.successful_pings : ℕ) : ℚ)
        / (((n.successful_pings + n.failed_pings : ℕ)) : ℚ) := by
    push_cast
    field_simp
    ring
  simp only [Node.response_rate, spec_response_rate, if_neg h, pyRound1Tenths]
  rw [h10, rheZ_nat_div _ _ hden]
  simp [fmtPercent]

/-- Witness for C2 at a node with 2 successes and 1 failure: the rate renders
as "66.7%" (rounded to one decimal, trailing percent). -/
theorem c2_rate_nonzero_success_witness :
    nodeSucc.successful_pings ≠ 0 ∧
    nodeSucc.response_rate = spec_response_rate nodeSucc.successful_pings
      nodeSucc.failed_pings ∧
    spec_response_rate 2 1 = "66.7%" :=
  ⟨by decide, c2_rate_nonzero_success nodeSucc (by decide), by decide⟩
